import Mathlib

/-!
# Verification of the TB RAG retrieval and table-understanding engine

This file is a shallow embedding, in Lean 4, of the retrieval core implemented in
`api/tb-rag-query.js`: the query classifier (scope and document-hint inference), the
candidate selector (scope / document-hint filters with fallback), the dual-channel
ranker (per-channel cosine scoring, table boosting, merge, dedupe, truncation), the
request handler around them, and the table pipeline (row normalization, subtype
detection, and the per-subtype renderers).

Modelling conventions:
* JavaScript strings are Lean `String`s; `toLowerCase`, `trim`, `includes`,
  `startsWith`/`endsWith` and the few regular expressions the source uses are
  re-implemented below over `String.data` (ASCII case mapping, which covers every
  string the source matches against).
* JavaScript numbers are embedded as `ℚ` (the corpus embeddings are consumed
  already normalized, per the system boundary, so no square roots occur in the core).
* Fields that the source reads with `(x || "")` are plain `String`s with `""`
  standing for an absent field; a JSON value that may be a non-string is the
  inductive `JVal`; a cell value that may be `undefined` is an `Option String`.
* Thrown exceptions caught by the handler's `try/catch` are `Except` errors,
  surfaced as `HResp.serverErr`.
* The handler body in `api/tb-rag-query.js` contains a duplicated closing brace
  directly after the dedupe loop (line 1412), which makes the file a JavaScript
  `SyntaxError`; the embedding follows the evident intended parse (identical to the
  previous revision of the same handler), and the slip is recorded in the theorem
  for the dedupe claim.
-/

set_option allowUnsafeReducibility true in
attribute [semireducible] Rat.mul Rat.add Rat.sub Rat.inv

/-! ## JavaScript string primitives -/

/-- ASCII `toLowerCase`, as applied by the source to every string it matches on. -/
def jsLower (s : String) : String := ⟨s.data.map Char.toLower⟩

/-- The whitespace class used by `trim` and `\s`. -/
def jsWs (c : Char) : Bool :=
  c = ' ' || c = '\t' || c = '\n' || c = '\r' || c = '\x0b' || c = '\x0c'

/-- `String.prototype.trim`. -/
def jsTrim (s : String) : String :=
  ⟨((s.data.dropWhile (fun c => jsWs c)).reverse.dropWhile (fun c => jsWs c)).reverse⟩

/-- Substring search on character lists: `hay.includes(pat)`. -/
def hasSubList : List Char → List Char → Bool
  | [], pat => pat.isEmpty
  | c :: t, pat => pat.isPrefixOf (c :: t) || hasSubList t pat

/-- `hay.includes(pat)` for strings. -/
def jsIncludes (hay pat : String) : Bool := hasSubList hay.data pat.data

/-- `s.startsWith(p)`. -/
def strStarts (s p : String) : Bool := p.data.isPrefixOf s.data

/-- `s.endsWith(p)`. -/
def strEnds (s p : String) : Bool := p.data.reverse.isPrefixOf s.data.reverse

/-- `pats.some(p => s.includes(p))`: the embedding of an alternation-of-literals
regular expression tested against (already lower-cased) `s`. -/
def capAny (s : String) (pats : List String) : Bool := pats.any (fun p => jsIncludes s p)

/-- Keep the first occurrence of each element: the observable content of a JS `Set`
built by successive `add`s and read back with `Array.from`. -/
def dedupFirst : List String → List String
  | [] => []
  | s :: t => s :: (dedupFirst t).filter (fun x => x != s)

/-- Join a list of strings with a separator (`Array.prototype.join`). -/
def joinWith (sep : String) : List String → String
  | [] => ""
  | s :: t => t.foldl (fun acc x => acc ++ sep ++ x) s

/-! ## Data model: chunks -/

/-- A corpus chunk record.  Every field the source reads through `(c.field || "")`
is a `String`, with `""` standing for an absent field. -/
structure Chunk where
  doc_id : String := ""
  chunk_id : String := ""
  section_path : String := ""
  content_type : String := ""
  text : String := ""
  caption : String := ""
  guideline_title : String := ""
  scope : String := ""
deriving DecidableEq

instance : Inhabited Chunk := ⟨{}⟩

/-- `chunks[i] || {}`. -/
def chunkAt (chunks : List Chunk) (i : Nat) : Chunk := chunks.getD i {}

/-! ## Query classifier: `keywordScore` and `inferScopeFromQuestion` -/

/-- `keywordScore(text, keywords)`: number of keywords occurring as substrings. -/
def keywordScore (text : String) (keywords : List String) : Nat :=
  keywords.foldl (fun score kw => if jsIncludes text kw then score + 1 else score) 0

def diagnosisKeywords : List String :=
  ["diagnos", "algorithm", "cxr", "x-ray", "radiograph", "screen", "xpert", "naat",
   "truenat", "lamp", "wrd", "wrds", "lpa", "smear", "ultra"]

def treatmentKeywords : List String :=
  ["treatment", "regimen", "therapy", "dosing", "dose", "4-month", "6-month", "bpal",
   "bdq", "pretomanid", "linezolid", "dr-tb", "drug-resistant"]

def safetyKeywords : List String :=
  ["adverse", "toxicity", "monitor", "safety", "ecg", "qt", "lft", "renal", "hepat",
   "side effect", "side effects"]

def pediKeywords : List String :=
  ["child", "children", "paediatric", "pediatric", "adolescent", "infant", "neonate"]

def programKeywords : List String :=
  ["program", "programmatic", "supply chain", "implementation", "health system",
   "adherence support", "community"]

/-- The body of `inferScopeFromQuestion` after the question has been lower-cased
(the `const q = (question || "").toLowerCase(); if (!q) return null;` part is split
off so the handler can also model the lowering step throwing on non-strings). -/
def inferScopeCore (q : String) : Option String :=
  if q = "" then none
  else
    let diagnosisScore := keywordScore q diagnosisKeywords
    let treatmentScore := keywordScore q treatmentKeywords
    let safetyScore := keywordScore q safetyKeywords
    let pediScore := keywordScore q pediKeywords
    let programScore := keywordScore q programKeywords
    if 2 ≤ diagnosisScore || (diagnosisScore != 0 && jsIncludes q "module 3") then
      some "diagnosis"
    else if 2 ≤ pediScore then some "pediatrics"
    else if 2 ≤ safetyScore || (safetyScore != 0 && jsIncludes q "monitor") then
      some "drug-safety"
    else if 2 ≤ programScore then some "programmatic"
    else if 2 ≤ treatmentScore then some "treatment"
    else none

/-- `inferScopeFromQuestion(question)` for a string question. -/
def inferScopeFromQuestion (question : String) : Option String :=
  inferScopeCore (jsLower question)

/-! ## Candidate selector: `filterIndicesByScope` -/

def recognizedScopes : List String :=
  ["diagnosis", "treatment", "drug-safety", "pediatrics", "programmatic"]

/-- The per-index predicate inside `filterIndicesByScope` (with `s` the already
lower-cased scope). -/
def scopeKeep (chunks : List Chunk) (s : String) (i : Nat) : Bool :=
  let c := chunkAt chunks i
  let docId := jsLower c.doc_id
  let sec := jsLower c.section_path
  let chunkScope := jsLower c.scope
  if chunkScope != "" then chunkScope == s
  else if s == "diagnosis" then
    jsIncludes docId "diag" || jsIncludes sec "diagnos" || jsIncludes sec "xpert" ||
      jsIncludes sec "cxr"
  else if s == "treatment" then
    jsIncludes docId "treat" || jsIncludes sec "treatment" || jsIncludes sec "regimen"
  else if s == "drug-safety" then
    jsIncludes sec "monitor" || jsIncludes sec "ecg" || jsIncludes sec "adverse" ||
      jsIncludes sec "safety"
  else if s == "pediatrics" then
    jsIncludes docId "pediatric" || jsIncludes docId "child" || jsIncludes sec "child" ||
      jsIncludes sec "adolescent"
  else if s == "programmatic" then
    jsIncludes sec "program" || jsIncludes sec "implementation" ||
      jsIncludes sec "health system"
  else true

/-- `filterIndicesByScope(indices, chunks, scope)`; `none` models a null/absent
scope and `some ""` the falsy empty string (both return the input unchanged). -/
def filterIndicesByScope (indices : List Nat) (chunks : List Chunk)
    (scope : Option String) : List Nat :=
  match scope with
  | none => indices
  | some sc => if sc = "" then indices else indices.filter (scopeKeep chunks (jsLower sc))

/-! ## Candidate selector: document-hint tokens and filter -/

/-- `s.replace(/\s+/g, "")`. -/
def stripWs (s : String) : String := ⟨s.data.filter (fun c => !jsWs c)⟩

/-- `s.replace(/\s+/g, "_")`: each maximal whitespace run becomes one underscore. -/
def wsToUnderscore (s : String) : String :=
  let rec go : Bool → List Char → List Char
    | _, [] => []
    | inRun, c :: t =>
      if jsWs c then (if inRun then go true t else '_' :: go true t) else c :: go false t
  ⟨go false s.data⟩

/-- `s.replace(/[^a-z0-9]+/g, "")` (applied after lower-casing). -/
def keepAlnum (s : String) : String :=
  ⟨s.data.filter (fun c => ('a' ≤ c && c ≤ 'z') || ('0' ≤ c && c ≤ '9'))⟩

/-- `buildDocHintTokens(hint)`. -/
def buildDocHintTokens (hint : Option String) : List String :=
  match hint with
  | none => []
  | some h =>
    if h = "" then []
    else
      let raw := jsTrim (jsLower h)
      if raw = "" then []
      else (dedupFirst [raw, stripWs raw, wsToUnderscore raw, keepAlnum raw]).filter
        (fun t => t != "")

/-- The per-index predicate inside `filterIndicesByDocHint`. -/
def docHintKeep (chunks : List Chunk) (hintTokens : List String) (idx : Nat) : Bool :=
  let c := chunkAt chunks idx
  let haystacks :=
    [jsLower c.doc_id, jsLower c.section_path, jsLower c.guideline_title, jsLower c.scope]
  haystacks.any (fun hay => hay != "" && hintTokens.any (fun token => jsIncludes hay token))

/-- The raw document-hint filter (the `indices.filter(...)` expression inside
`filterIndicesByDocHint`, before that function's own keep-the-input fallback). -/
def docHintFiltered (indices : List Nat) (chunks : List Chunk)
    (hint : Option String) : List Nat :=
  match hint with
  | none => indices
  | some h => indices.filter (docHintKeep chunks (buildDocHintTokens (some h)))

/-- `filterIndicesByDocHint(indices, chunks, hint)`, including its internal
`filtered.length ? filtered : indices` fallback. -/
def filterIndicesByDocHint (indices : List Nat) (chunks : List Chunk)
    (hint : Option String) : List Nat :=
  match hint with
  | none => indices
  | some h =>
    if h = "" then indices
    else
      let hintTokens := buildDocHintTokens (some h)
      if hintTokens.isEmpty then indices
      else
        let filtered := indices.filter (docHintKeep chunks hintTokens)
        if filtered.isEmpty then indices else filtered

/-! ## Query classifier: document-hint aliases -/

structure DocHintAlias where
  target : String
  keywords : List String
  requires : List String
deriving DecidableEq

def DOC_HINT_ALIASES : List DocHintAlias :=
  [⟨"module3_diagnosis", ["module 3", "module3", "module iii"],
     ["diagnos", "algorithm", "cxr"]⟩,
   ⟨"module4_treatment", ["module 4", "module4", "module iv"],
     ["treat", "regimen", "therapy"]⟩,
   ⟨"consolidated_module3", ["consolidated", "module 3"], ["diagnos"]⟩]

/-- First alias whose trigger keywords occur and whose requirements (if any) are met. -/
def docHintLookup (q : String) : List DocHintAlias → Option String
  | [] => none
  | alias0 :: rest =>
    if alias0.keywords.any (fun kw => jsIncludes q kw) then
      if alias0.requires.isEmpty || alias0.requires.any (fun kw => jsIncludes q kw) then
        some alias0.target
      else docHintLookup q rest
    else docHintLookup q rest

/-- Body of `inferDocHintFromQuestion` after lower-casing. -/
def inferDocHintCore (q : String) : Option String :=
  if q = "" then none else docHintLookup q DOC_HINT_ALIASES

/-- `inferDocHintFromQuestion(question)` for a string question. -/
def inferDocHintFromQuestion (question : String) : Option String :=
  inferDocHintCore (jsLower question)

/-! ## Section keys: `extractSectionKeys` and the `\b\d+(?:\.\d+)*\b` scanner -/

/-- The `\w` class of JavaScript regular expressions. -/
def isWordChar (c : Char) : Bool := c.isAlpha || c.isDigit || c = '_'

/-- Split a leading run of digits. -/
def splitDigits : List Char → List Char × List Char
  | [] => ([], [])
  | c :: t =>
    if c.isDigit then
      let p := splitDigits t
      (c :: p.1, p.2)
    else ([], c :: t)

/-- A word boundary `\b` holds after a digit exactly when the next character is not
a word character (or the string ends). -/
def boundaryOk : List Char → Bool
  | [] => true
  | c :: _ => !isWordChar c

/-- Greedy-with-backtracking consumption of `(?:\.\d+)*` followed by `\b`:
returns the matched extension and the rest, or `none` when no number of groups
(one or more) can be followed by a boundary.  Fuel is the remaining length. -/
def extendGroups : Nat → List Char → Option (List Char × List Char)
  | 0, _ => none
  | _, [] => none
  | fuel + 1, c :: rest =>
    if c = '.' then
      let p := splitDigits rest
      if p.1.isEmpty then none
      else
        match extendGroups fuel p.2 with
        | some q => some (('.' :: p.1) ++ q.1, q.2)
        | none => if boundaryOk p.2 then some ('.' :: p.1, p.2) else none
    else none

/-- Global scan for `\b\d+(?:\.\d+)*\b` (the `s.match(...)` loop): `prevWord` is
whether the previous character was a word character. -/
def scanNums : Nat → Bool → List Char → List (List Char)
  | 0, _, _ => []
  | _, _, [] => []
  | fuel + 1, prevWord, c :: rest =>
    if c.isDigit && !prevWord then
      let p := splitDigits (c :: rest)
      match extendGroups p.2.length p.2 with
      | some q => (p.1 ++ q.1) :: scanNums fuel true q.2
      | none =>
        if boundaryOk p.2 then p.1 :: scanNums fuel true p.2
        else scanNums fuel (isWordChar c) rest
    else scanNums fuel (isWordChar c) rest

/-- `s.match(/\b\d+(?:\.\d+)*\b/g) || []`. -/
def jsMatchNums (s : String) : List String :=
  (scanNums s.data.length false s.data).map (fun l => ⟨l⟩)

/-- `split("|")` on the underlying characters. -/
def splitPipe : List Char → List (List Char)
  | [] => [[]]
  | c :: t =>
    match splitPipe t with
    | [] => [[c]]
    | h :: r => if c = '|' then [] :: h :: r else (c :: h) :: r

/-- `extractSectionKeys(sectionPath)`: the trimmed lower-cased path, its non-blank
`|`-segments, and every embedded dotted numeric label, first occurrences only. -/
def extractSectionKeys (sectionPath : String) : List String :=
  if sectionPath = "" then []
  else
    let s := jsLower sectionPath
    let segments :=
      ((splitPipe s.data).map (fun seg => jsTrim ⟨seg⟩)).filter (fun seg => seg != "")
    dedupFirst ([jsTrim s] ++ segments ++ jsMatchNums s)

/-! ## Similarity scorer and the dual-channel ranker -/

/-- `cosineSim(a, b)`: dot product over the common prefix (vectors are consumed
already normalized, per the system boundary). -/
def cosineSim (a b : List ℚ) : ℚ :=
  ((a.zip b).map (fun p => p.1 * p.2)).foldl (· + ·) 0

/-- A ranked candidate: `{ index, score }`. -/
abbrev Entry := Nat × ℚ

/-- The ordering realized by `.sort((a, b) => b.score - a.score)`: descending by
score, original order on ties (JS `Array.prototype.sort` is stable). -/
def entryLE (a b : Entry) : Prop := b.2 ≤ a.2

instance : DecidableRel entryLE := fun a b => inferInstanceAs (Decidable (b.2 ≤ a.2))

instance : IsTotal Entry entryLE := ⟨fun a b => le_total b.2 a.2⟩

instance : IsTrans Entry entryLE := ⟨fun _ _ _ hab hbc => le_trans hbc hab⟩

/-- `.sort((a, b) => b.score - a.score)` as the (unique) stable sort under `entryLE`. -/
def sortByScoreDesc (l : List Entry) : List Entry := List.insertionSort entryLE l

/-- `indices.filter(i => (chunks[i].content_type || "").toLowerCase() !== "table")`. -/
def textIndicesOf (chunks : List Chunk) (indices : List Nat) : List Nat :=
  indices.filter (fun i => jsLower (chunkAt chunks i).content_type != "table")

/-- `indices.filter(i => (chunks[i].content_type || "").toLowerCase() === "table")`. -/
def tableIndicesOf (chunks : List Chunk) (indices : List Nat) : List Nat :=
  indices.filter (fun i => jsLower (chunkAt chunks i).content_type == "table")

/-- `idxs.map(idx => ({ index: idx, score: cosineSim(qEmbedding, embeddings[idx]) }))`. -/
def scoreEntries (qEmb : List ℚ) (embeddings : List (List ℚ)) (idxs : List Nat) :
    List Entry :=
  idxs.map (fun idx => (idx, cosineSim qEmb (embeddings.getD idx [])))

/-- An anchor record built from a top prose result. -/
structure Anchor where
  index : Nat
  score : ℚ
  doc_id : String
  section_path : String
  content_type : String
  sectionKeys : List String
deriving DecidableEq

def mkAnchor (chunks : List Chunk) (e : Entry) : Anchor :=
  let c := chunkAt chunks e.1
  ⟨e.1, e.2, c.doc_id, c.section_path, jsLower c.content_type,
    extractSectionKeys c.section_path⟩

/-- `scoredText.slice(0, Math.min(10, scoredText.length)).map(...)`. -/
def anchorsOf (chunks : List Chunk) (sortedText : List Entry) : List Anchor :=
  (sortedText.take (min 10 sortedText.length)).map (mkAnchor chunks)

/-- The anchors with a truthy `doc_id` (`anchorDocSectionMap`). -/
def anchorDocSectionMap (anchors : List Anchor) : List Anchor :=
  anchors.filter (fun a => a.doc_id != "")

/-- `scoredText.length ? scoredText[0].score : 1.0`. -/
def maxTextScoreOf (sortedText : List Entry) : ℚ :=
  match sortedText with
  | [] => 1
  | e :: _ => e.2

/-- The per-entry effect of the table-boost loop: a table entry that shares a
truthy `doc_id` and at least one section key with some anchor gets its score
raised to at least `0.98 × maxTextScore`. -/
def boostEntry (chunks : List Chunk) (amap : List Anchor) (maxTextScore : ℚ)
    (e : Entry) : Entry :=
  let c := chunkAt chunks e.1
  if c.doc_id = "" then e
  else
    let tableKeys := extractSectionKeys c.section_path
    if amap.any (fun a =>
        a.doc_id == c.doc_id && a.sectionKeys.any (fun key => tableKeys.contains key)) then
      (e.1, max e.2 (maxTextScore * (98 / 100)))
    else e

/-- The prose channel, scored and sorted. -/
def rankSortedText (chunks : List Chunk) (embeddings : List (List ℚ)) (qEmb : List ℚ)
    (indices : List Nat) : List Entry :=
  sortByScoreDesc (scoreEntries qEmb embeddings (textIndicesOf chunks indices))

/-- The table channel after scoring, the first sort, and the boost loop. -/
def rankBoostedTables (chunks : List Chunk) (embeddings : List (List ℚ)) (qEmb : List ℚ)
    (indices : List Nat) : List Entry :=
  let sortedText := rankSortedText chunks embeddings qEmb indices
  let amap := anchorDocSectionMap (anchorsOf chunks sortedText)
  let m := maxTextScoreOf sortedText
  (sortByScoreDesc (scoreEntries qEmb embeddings (tableIndicesOf chunks indices))).map
    (boostEntry chunks amap m)

def TEXT_LIMIT : Nat := 10

def TABLE_LIMIT : Nat := 5

/-- Channel truncation, merge, and the final sort (`combined.sort(...)`). -/
def rankCombined (chunks : List Chunk) (embeddings : List (List ℚ)) (qEmb : List ℚ)
    (indices : List Nat) : List Entry :=
  let sortedText := rankSortedText chunks embeddings qEmb indices
  let sortedTables := sortByScoreDesc (rankBoostedTables chunks embeddings qEmb indices)
  let topText := sortedText.take (min TEXT_LIMIT sortedText.length)
  let topTables := sortedTables.take (min TABLE_LIMIT sortedTables.length)
  sortByScoreDesc (topText ++ topTables)

/-- The dedupe loop: first occurrence of each truthy `chunk_id` survives; entries
with a falsy `chunk_id` are dropped. -/
def dedupeEntries (chunks : List Chunk) : List String → List Entry → List Entry
  | _, [] => []
  | seen, e :: rest =>
    let id := (chunkAt chunks e.1).chunk_id
    if id = "" || seen.contains id then dedupeEntries chunks seen rest
    else e :: dedupeEntries chunks (id :: seen) rest

def rankDeduped (chunks : List Chunk) (embeddings : List (List ℚ)) (qEmb : List ℚ)
    (indices : List Nat) : List Entry :=
  dedupeEntries chunks [] (rankCombined chunks embeddings qEmb indices)

/-- `deduped.slice(0, finalTopK).map(...)`: each surviving entry, with its chunk
record and score (table enrichment reads the filesystem and is outside the core;
it does not change `chunk_id` or `score`). -/
def ragResults (chunks : List Chunk) (embeddings : List (List ℚ)) (qEmb : List ℚ)
    (indices : List Nat) (k : Nat) : List (Chunk × ℚ) :=
  ((rankDeduped chunks embeddings qEmb indices).take k).map
    (fun e => (chunkAt chunks e.1, e.2))

/-! ## Candidate selection in the handler -/

/-- Lines 1308–1317 of the handler: full index set, scope filter with fallback,
document-hint filter with fallback. -/
def selectCandidates (chunks : List Chunk) (nEmb : Nat) (scope hint : Option String) :
    List Nat :=
  let fullIndices := List.range nEmb
  let scoped0 := filterIndicesByScope fullIndices chunks scope
  let scopedIndices := if scoped0.isEmpty then fullIndices else scoped0
  let inds0 := filterIndicesByDocHint scopedIndices chunks hint
  if inds0.isEmpty then scopedIndices else inds0

/-- The intermediate `scopedIndices` value of the handler (the scope filter with
its fallback applied to the full index set). -/
def scopedIndicesStage (chunks : List Chunk) (nEmb : Nat) (scope : Option String) :
    List Nat :=
  let scoped0 := filterIndicesByScope (List.range nEmb) chunks scope
  if scoped0.isEmpty then List.range nEmb else scoped0

/-! ## The request handler -/

/-- A JSON value in the positions where the source may receive a non-string. -/
inductive JVal where
  | jstr (s : String)
  | jnum (n : ℚ)
  | jbool (b : Bool)
  | jnull
  | jundef
  | jarr
  | jobj
deriving DecidableEq

/-- JavaScript truthiness (an array or object is always truthy, even when empty). -/
def jsTruthy : JVal → Bool
  | .jstr s => s != ""
  | .jnum n => n != 0
  | .jbool b => b
  | .jnull => false
  | .jundef => false
  | .jarr => true
  | .jobj => true

def typeErrorMsg : String := "question.toLowerCase is not a function"

/-- `(v || "").toLowerCase()`: falsy values collapse to `""`; a truthy non-string
throws a `TypeError` (caught by the handler's `try/catch`). -/
def jvalLowerString (v : JVal) : Except String String :=
  if jsTruthy v then
    match v with
    | .jstr s => .ok (jsLower s)
    | _ => .error typeErrorMsg
  else .ok ""

/-- `inferScopeFromQuestion(question)` as called on the raw request field. -/
def inferScopeJ (question : JVal) : Except String (Option String) :=
  (jvalLowerString question).map inferScopeCore

/-- `inferDocHintFromQuestion(question)` as called on the raw request field. -/
def inferDocHintJ (question : JVal) : Except String (Option String) :=
  (jvalLowerString question).map inferDocHintCore

/-- The decoded request body.  `top_k` is `some n` exactly when
`typeof body.top_k === "number"`; `scope`/`document_hint` are `some s` when the
corresponding field is the string `s`. -/
structure ReqBody where
  question : JVal := .jundef
  top_k : Option ℚ := none
  scope : Option String := none
  document_hint : Option String := none
deriving DecidableEq

structure RagResponse where
  question : String
  top_k : ℚ
  scope : Option String
  document_hint : Option String
  results : List (Chunk × ℚ)
deriving DecidableEq

/-- The handler outcome: a 200 payload, a 400 validation error, or a 500 server
error (anything thrown inside the `try`). -/
inductive HResp where
  | ok (resp : RagResponse)
  | clientErr (error : String)
  | serverErr (error : String)
deriving DecidableEq

def validationMsg : String := "Missing or empty 'question' string in request body."

def emptyStoreMsg : String := "RAG store is empty or failed to load."

/-- The POST request handler of `api/tb-rag-query.js` (intended parse; see the
module docstring).  The corpus (`chunks`, `embeddings`) and the query embedding
`qEmbedding` are inputs: corpus loading and the embedding call are external
collaborators, and a failure of either would likewise surface as `serverErr`. -/
def handleQuery (body : ReqBody) (chunks : List Chunk) (embeddings : List (List ℚ))
    (qEmbedding : List ℚ) : HResp :=
  let question := body.question
  let scope0 : Option String :=
    match body.scope with
    | some s => if s = "" then none else some s
    | none => none
  let hint0 : Option String :=
    match body.document_hint with
    | some s => if s = "" then none else some s
    | none => none
  let scopeE : Except String (Option String) :=
    match scope0 with
    | some s => .ok (some s)
    | none => inferScopeJ question
  match scopeE with
  | .error e => .serverErr e
  | .ok scope =>
    let hintE : Except String (Option String) :=
      match hint0 with
      | some h => .ok (some h)
      | none => inferDocHintJ question
    match hintE with
    | .error e => .serverErr e
    | .ok documentHint =>
      let qValid : Option String :=
        match question with
        | .jstr s => if jsTrim s = "" then none else some s
        | _ => none
      match qValid with
      | none => .clientErr validationMsg
      | some qs =>
        let finalTopK0 : ℚ := match body.top_k with | some n => n | none => 8
        let finalTopK1 : ℚ := max 1 (min finalTopK0 8)
        if embeddings.isEmpty || chunks.isEmpty then .serverErr emptyStoreMsg
        else
          let finalTopK : ℚ := min finalTopK1 (embeddings.length : ℚ)
          let indices := selectCandidates chunks embeddings.length scope documentHint
          let results :=
            ragResults chunks embeddings qEmbedding indices (Rat.floor finalTopK).toNat
          .ok ⟨qs, finalTopK, scope, documentHint, results⟩

/-! ## Table model: raw rows and logical rows -/

/-- A raw CSV row as parsed with generic column names: an insertion-ordered
object whose values are strings, or `none` for a property holding `undefined`. -/
abbrev RawRow := List (String × Option String)

/-- Property read `r[k]` on a raw row. -/
def rawGet (r : RawRow) (k : String) : Option String :=
  match r.find? (fun p => p.1 == k) with
  | some p => p.2
  | none => none

/-- `String(v)` for a string-or-undefined value. -/
def jsStringOf (v : Option String) : String :=
  match v with
  | some s => s
  | none => "undefined"

/-- A Logical Row: the relabelled cells, in insertion order, plus the
`_row_index` bookkeeping property (kept apart so that `getTableHeaders` can
exclude it while `detectTableSubtype` sees the key). -/
structure LRow where
  cells : List (String × Option String)
  rowIdx : Option String := none
deriving DecidableEq

/-- Property read `row[k]` on a logical row. -/
def rowGet (r : LRow) (k : String) : Option String :=
  match r.cells.find? (fun p => p.1 == k) with
  | some p => p.2
  | none => none

/-- `nonEmpty(val)`: defined and not blank. -/
def nonEmpty (v : Option String) : Bool :=
  match v with
  | none => false
  | some s => jsTrim s != ""

/-- `Object.keys(logicalRows[0]).filter(h => h !== "_row_index")`. -/
def getTableHeaders (logicalRows : List LRow) : List String :=
  match logicalRows with
  | [] => []
  | r :: _ => r.cells.map (fun p => p.1)

/-- Assignment `obj[k] = v` on an insertion-ordered object. -/
def objInsert (obj : List (String × Option String)) (k : String) (v : Option String) :
    List (String × Option String) :=
  if obj.any (fun p => p.1 == k) then obj.map (fun p => if p.1 == k then (p.1, v) else p)
  else obj ++ [(k, v)]

/-- The column-name test of `normalizeTableRows`: the source regex
`/^columna|columnb|...|columnz$/` anchors only its first and last alternative, so
only "columna" is matched as a full word at the start and "columnz" at the end;
the other names match anywhere. -/
def isContentColName (k : String) : Bool :=
  let lower := jsLower k
  strStarts lower "columna" ||
    (["columnb", "columnc", "columnd", "columne", "columnf", "columng", "columnh",
      "columni", "columnj", "columnk", "columnl", "columnm", "columnn", "columno",
      "columnp", "columnq", "columnr", "columns", "columnt", "columnu", "columnv",
      "columnw", "columnx", "columny"].any (fun p => jsIncludes lower p)) ||
    strEnds lower "columnz"

/-- `normalizeTableRows(rawRows)`: identify the Header Row (`row_index == "1"`,
else the first row), keep the generic columns whose header cell is non-blank, and
relabel every other row's cells under the header labels. -/
def normalizeTableRows (rawRows : List RawRow) : Option RawRow × List LRow :=
  match rawRows with
  | [] => (none, [])
  | r0 :: _ =>
    let headerRow :=
      (rawRows.find? (fun r => jsStringOf (rawGet r "row_index") == "1")).getD r0
    let dataRows := rawRows.filter
      (fun r => jsStringOf (rawGet r "row_index") != jsStringOf (rawGet headerRow "row_index"))
    let allKeys := headerRow.map (fun p => p.1)
    let contentCols := allKeys.filter (fun k =>
      isContentColName k &&
        (match rawGet headerRow k with
         | some s => s != "" && jsTrim s != ""
         | none => false))
    let logicalRows := dataRows.map (fun row =>
      let cells := contentCols.foldl (fun acc col =>
        let headerLabel := jsTrim (match rawGet headerRow col with
          | some s => s
          | none => "")
        if headerLabel = "" then acc else objInsert acc headerLabel (rawGet row col)) []
      LRow.mk cells (rawGet row "row_index"))
    (some headerRow, logicalRows)

/-! ## Table subtype detection -/

/-- The headers as `detectTableSubtype` sees them: the keys of the first logical
row, lower-cased — including the `_row_index` bookkeeping key. -/
def detectHeaders (logicalRows : List LRow) : List String :=
  match logicalRows with
  | [] => []
  | r :: _ => (r.cells.map (fun p => jsLower p.1)) ++ ["_row_index"]

/-- The `if.*then` alternative of the decision-caption regex: an occurrence of
"if" with "then" somewhere at or after its end. -/
def ifThenTest : List Char → Bool
  | [] => false
  | c :: t =>
    if "if".data.isPrefixOf (c :: t) then hasSubList ((c :: t).drop 2) "then".data
    else ifThenTest t

/-- `detectTableSubtype(chunk, logicalRows, headerRow)` (the `headerRow` argument
is unused in the source body). -/
def detectTableSubtype (chunk : Chunk) (logicalRows : List LRow) : String :=
  let caption := jsLower chunk.caption
  let sec := jsLower chunk.section_path
  let headers := detectHeaders logicalRows
  if capAny caption ["dose", "dosage", "mg/kg", "mg/ day", "mg per kg", "weight band",
      "weight-band"] || headers.any (fun h => jsIncludes h "kg") then
    if capAny caption ["child", "paediatric", "pediatric", "infant", "neonate"] ||
        jsIncludes sec "child" then "peds_dosing"
    else "dosing"
  else if capAny caption ["eligib", "criteria", "decision", "indication", "when to"] ||
      ifThenTest caption.data ||
      headers.any (fun h => capAny h ["criteria", "recommendation", "option", "action"]) then
    "decision"
  else if (headers.any (fun h => jsIncludes h "regimen")) &&
      (headers.any (fun h => capAny h ["drug", "component", "medicine", "combination"])) then
    "regimen"
  else if capAny caption ["monitoring", "follow-up", "follow up", "timeline", "schedule"] ||
      headers.any (fun h => capAny h ["baseline", "month", "week", "visit", "timepoint"]) then
    "timeline"
  else if capAny caption ["interaction", "drug-drug", "drug drug", "qt", "contraindication"] ||
      headers.any (fun h => capAny h ["interaction", "effect", "recommendation"]) then
    "interaction"
  else if capAny caption ["toxicity", "adverse event", "side effect", "hepatotox",
      "neuropathy", "ae management"] ||
      headers.any (fun h => capAny h ["grade", "toxicity", "ctcae"]) then
    "toxicity"
  else "generic"

/-! ## Table renderers -/

/-- `` `${h}: ${String(v).trim()}` `` guarded by `nonEmpty`. -/
def labelVal (h : String) (v : Option String) : Option String :=
  if nonEmpty v then some (h ++ ": " ++ jsTrim (v.getD "")) else none

/-- The recurring "all non-empty header: value cells of this row" list. -/
def rowCellsList (headers : List String) (row : LRow) : List String :=
  headers.filterMap (fun h => labelVal h (rowGet row h))

/-- `headers.find(h => pats-regex.test(h.toLowerCase()))`. -/
def findHeader (headers : List String) (pats : List String) : Option String :=
  headers.find? (fun h => capAny (jsLower h) pats)

/-- `renderGenericTable` (text part; the `debug` object is reporting only). -/
def renderGenericTable (chunk : Chunk) (logicalRows : List LRow) : String :=
  let caption := if chunk.caption = "" then "Table" else chunk.caption
  let headers := getTableHeaders logicalRows
  if logicalRows.isEmpty || headers.isEmpty then caption ++ ". (No rows found.)"
  else
    let headerLine := caption ++ ". Columns: " ++ joinWith ", " headers
    let rowLines := logicalRows.enum.map (fun ie =>
      let cells := joinWith "; " (headers.map (fun h => h ++ ": " ++ ((rowGet ie.2 h).getD "")))
      "Row " ++ toString (ie.1 + 1) ++ ": " ++ cells)
    joinWith "\n" (headerLine :: rowLines)

def medKeyPats : List String := ["medicine", "drug", "product", "regimen", "group", "tb drug"]

def weightBandPats : List String :=
  ["kg", "weight band", "weight-band", "weight range", " to <", " to ≤", "≥", "<=", ">="]

/-- `renderDosingTable` (text part). -/
def renderDosingTable (chunk : Chunk) (logicalRows : List LRow) : String :=
  let caption := if chunk.caption = "" then "Dosing table" else chunk.caption
  let headers := getTableHeaders logicalRows
  if logicalRows.isEmpty || headers.isEmpty then caption ++ ". (No rows found.)"
  else
    let medKey := (findHeader headers medKeyPats).getD (headers.headD "")
    let weightBandKeys := headers.filter (fun h => capAny (jsLower h) weightBandPats)
    if weightBandKeys.isEmpty then renderGenericTable chunk logicalRows
    else
      let rowLines := logicalRows.filterMap (fun row =>
        let med := rowGet row medKey
        if !nonEmpty med then none
        else
          let bandParts := weightBandKeys.filterMap (fun k => labelVal k (rowGet row k))
          if bandParts.isEmpty then
            let cells := rowCellsList headers row
            if cells.isEmpty then none
            else some ((med.getD "") ++ ": " ++ joinWith "; " cells)
          else some ((med.getD "") ++ ": " ++ joinWith "; " bandParts))
      joinWith "\n" ((caption ++ ". Weight-band dosing summary:") :: rowLines)

def formPats : List String := ["formulation", "form", "dispersible", "fdc"]

/-- `renderPedsDosingTable` (text part). -/
def renderPedsDosingTable (chunk : Chunk) (logicalRows : List LRow) : String :=
  let caption := if chunk.caption = "" then "Paediatric dosing table" else chunk.caption
  let headers := getTableHeaders logicalRows
  if logicalRows.isEmpty || headers.isEmpty then caption ++ ". (No rows found.)"
  else
    let medKey := (findHeader headers medKeyPats).getD (headers.headD "")
    let formKey := findHeader headers formPats
    let weightBandKeys := headers.filter (fun h => capAny (jsLower h) weightBandPats)
    if weightBandKeys.isEmpty then renderGenericTable chunk logicalRows
    else
      let rowLines := logicalRows.filterMap (fun row =>
        let med := rowGet row medKey
        if !nonEmpty med then none
        else
          let form : Option String :=
            match formKey with
            | some fk => rowGet row fk
            | none => none
          let medPart := (med.getD "") ++
            (match form with
             | some f => if f != "" then " (" ++ f ++ ")" else ""
             | none => "")
          let bandParts := weightBandKeys.filterMap (fun k => labelVal k (rowGet row k))
          if bandParts.isEmpty then
            let cells := rowCellsList headers row
            if cells.isEmpty then none
            else some (medPart ++ " — " ++ joinWith "; " cells)
          else some (medPart ++ " — " ++ joinWith "; " bandParts))
      joinWith "\n" ((caption ++ ". Paediatric weight-band dosing summary:") :: rowLines)

def regimenKeyPats : List String := ["regimen", "name", "strategy", "option"]

def drugsKeyPats : List String := ["drug", "component", "medicine", "composition"]

def durationKeyPats : List String := ["duration", "months", "weeks", "days", "length of treatment"]

/-- `renderRegimenTable` (text part).  Note: this renderer has no generic
fallback branch in the source. -/
def renderRegimenTable (chunk : Chunk) (logicalRows : List LRow) : String :=
  let caption := if chunk.caption = "" then "Regimen composition table" else chunk.caption
  let headers := getTableHeaders logicalRows
  if logicalRows.isEmpty || headers.isEmpty then caption ++ ". (No rows found.)"
  else
    let regimenKey := (findHeader headers regimenKeyPats).getD (headers.headD "")
    let drugsKey := findHeader headers drugsKeyPats
    let durationKey := findHeader headers durationKeyPats
    let rowLines := logicalRows.enum.filterMap (fun ie =>
      let row := ie.2
      let regimen := rowGet row regimenKey
      if !nonEmpty regimen then
        let cells := rowCellsList headers row
        if cells.isEmpty then none
        else some ("Row " ++ toString (ie.1 + 1) ++ ": " ++ joinWith "; " cells)
      else
        let parts :=
          (match drugsKey with
           | some dk => if nonEmpty (rowGet row dk) then [jsTrim ((rowGet row dk).getD "")] else []
           | none => []) ++
          (match durationKey with
           | some dk =>
             if nonEmpty (rowGet row dk) then ["duration: " ++ jsTrim ((rowGet row dk).getD "")]
             else []
           | none => [])
        if parts.isEmpty then
          let cells := rowCellsList headers row
          some ((regimen.getD "") ++ ": " ++ joinWith "; " cells)
        else some ((regimen.getD "") ++ " — " ++ joinWith "; " parts))
    joinWith "\n" ((caption ++ ". Regimen components and options:") :: rowLines)

def conditionHeaderPats : List String :=
  ["if", "criteria", "condition", "situation", "scenario", "finding", "result",
   "status", "baseline", "risk"]

def actionHeaderPats : List String :=
  ["then", "recommendation", "action", "management", "treatment", "decision",
   "next step", "regimen"]

/-- The (condition, action, other) label lists of one decision-table row. -/
def decisionPartsOf (headers : List String) (row : LRow) :
    List String × List String × List String :=
  headers.foldl (fun acc h =>
    match labelVal h (rowGet row h) with
    | none => acc
    | some lbl =>
      if capAny (jsLower h) actionHeaderPats then (acc.1, acc.2.1 ++ [lbl], acc.2.2)
      else if capAny (jsLower h) conditionHeaderPats then (acc.1 ++ [lbl], acc.2.1, acc.2.2)
      else (acc.1, acc.2.1, acc.2.2 ++ [lbl])) ([], [], [])

/-- One decision-table row: the emitted line (if any) and whether it was an
IF–THEN line (counted by `rowsWithIfThen`). -/
def decisionRowLine (headers : List String) (ie : Nat × LRow) : Option (String × Bool) :=
  let parts := decisionPartsOf headers ie.2
  let conditionParts := parts.1
  let actionParts := parts.2.1
  let otherParts := parts.2.2
  if conditionParts.isEmpty && actionParts.isEmpty then
    if otherParts.isEmpty then none
    else some ("Row " ++ toString (ie.1 + 1) ++ ": " ++ joinWith "; " otherParts, false)
  else
    let conditionParts2 :=
      if conditionParts.isEmpty && !otherParts.isEmpty then conditionParts ++ otherParts
      else conditionParts
    let actionParts2 :=
      if !(conditionParts.isEmpty && !otherParts.isEmpty) &&
          actionParts.isEmpty && !otherParts.isEmpty then actionParts ++ otherParts
      else actionParts
    let condText :=
      if conditionParts2.isEmpty then "the criteria in this row are met"
      else joinWith "; " conditionParts2
    let actionText :=
      if actionParts2.isEmpty then "see other columns in this row for recommended action"
      else joinWith "; " actionParts2
    some ("IF " ++ condText ++ " THEN " ++ actionText, true)

/-- The number of IF–THEN lines the decision renderer produces (`rowsWithIfThen`). -/
def decisionIfThenCount (headers : List String) (logicalRows : List LRow) : Nat :=
  ((logicalRows.enum.filterMap (decisionRowLine headers)).filter (fun r => r.2)).length

/-- `renderDecisionTable` (text part). -/
def renderDecisionTable (chunk : Chunk) (logicalRows : List LRow) : String :=
  let caption := if chunk.caption = "" then "Decision table" else chunk.caption
  let headers := getTableHeaders logicalRows
  if logicalRows.isEmpty || headers.isEmpty then caption ++ ". (No rows found.)"
  else
    let rowResults := logicalRows.enum.filterMap (decisionRowLine headers)
    if (rowResults.filter (fun r => r.2)).length = 0 then renderGenericTable chunk logicalRows
    else
      joinWith "\n" ((caption ++ ". IF–THEN decision rules:") :: rowResults.map (fun r => r.1))

/-! ## Timeline renderer -/

/-- `/(month|week|day)\s*\d+/.test(s)`. -/
def timeNumScan : List Char → Bool
  | [] => false
  | c :: t =>
    (("month".data.isPrefixOf (c :: t) && wsThenDigit ((c :: t).drop 5)) ||
     ("week".data.isPrefixOf (c :: t) && wsThenDigit ((c :: t).drop 4)) ||
     ("day".data.isPrefixOf (c :: t) && wsThenDigit ((c :: t).drop 3)) ||
     timeNumScan t)
where
  wsThenDigit : List Char → Bool
    | [] => false
    | c :: t => if jsWs c then wsThenDigit t else c.isDigit

/-- `looksTimeLike(value)`. -/
def looksTimeLike (value : Option String) : Bool :=
  match value with
  | none => false
  | some v =>
    if v = "" then false
    else
      let s := jsLower v
      capAny s ["baseline", "month", "week", "day", "visit", "timepoint",
        "end of treatment", "posttreatment", "follow-up", "follow up", "followup"] ||
        timeNumScan s.data

inductive TimelineOrientation where
  | cols (entityHeader : String) (timeHeaders : List String)
  | rows (timeKey : String) (entityHeaders : List String)
  | unknown
deriving DecidableEq

/-- `guessTimelineOrientation(logicalRows)`. -/
def guessTimelineOrientation (logicalRows : List LRow) : TimelineOrientation :=
  let headers := getTableHeaders logicalRows
  if headers.isEmpty then .unknown
  else
    let timeHeaders := headers.filter (fun h => looksTimeLike (some h))
    if 2 ≤ timeHeaders.length then
      let entityHeader := (headers.find? (fun h => !timeHeaders.contains h)).getD (headers.headD "")
      .cols entityHeader timeHeaders
    else
      let firstCol := headers.headD ""
      let sampleRows := logicalRows.take 6
      let timeLikeCount := (sampleRows.filter (fun r => looksTimeLike (rowGet r firstCol))).length
      if 2 ≤ timeLikeCount then .rows firstCol (headers.drop 1)
      else .unknown

/-- The row lines of the columns-orientation branch. -/
def timelineColsLines (logicalRows : List LRow) (entityHeader : String)
    (timeHeaders : List String) : List String :=
  logicalRows.filterMap (fun row =>
    let entity := rowGet row entityHeader
    if !nonEmpty entity then none
    else
      let timeParts := timeHeaders.filterMap (fun h => labelVal h (rowGet row h))
      if timeParts.isEmpty then none
      else some ("For " ++ jsStringOf entity ++ ": " ++ joinWith "; " timeParts))

/-- The row lines of the rows-orientation branch. -/
def timelineRowsLines (logicalRows : List LRow) (timeKey : String)
    (entityHeaders : List String) : List String :=
  logicalRows.filterMap (fun row =>
    let whenVal := rowGet row timeKey
    if !nonEmpty whenVal then none
    else
      let parts := entityHeaders.filterMap (fun h => labelVal h (rowGet row h))
      if parts.isEmpty then none
      else some ("At " ++ jsStringOf whenVal ++ ": " ++ joinWith "; " parts))

/-- The structured row lines the timeline renderer ends up with for the detected
orientation (empty for an unknown orientation). -/
def timelineBodyLines (logicalRows : List LRow) : List String :=
  match guessTimelineOrientation logicalRows with
  | .cols entityHeader timeHeaders => timelineColsLines logicalRows entityHeader timeHeaders
  | .rows timeKey entityHeaders => timelineRowsLines logicalRows timeKey entityHeaders
  | .unknown => []

/-- `renderTimelineTable` (text part): each orientation branch returns its lines
only when it produced more than the header line, else control falls through to
the generic fallback. -/
def renderTimelineTable (chunk : Chunk) (logicalRows : List LRow) : String :=
  let caption := if chunk.caption = "" then "Monitoring schedule" else chunk.caption
  let headers := getTableHeaders logicalRows
  if logicalRows.isEmpty || headers.isEmpty then caption ++ ". (No rows found.)"
  else
    let headerLine := caption ++ ". Follow-up schedule over time:"
    let body := timelineBodyLines logicalRows
    if body.isEmpty then renderGenericTable chunk logicalRows
    else joinWith "\n" (headerLine :: body)

/-! ## Interaction renderer -/

/-- `isDrugHeader(h)`. -/
def isDrugHeader (h : String) : Bool :=
  let hl := jsLower h
  capAny hl ["drug 1", "drug1", "drug 2", "drug2", "drug a", "drug b", "medicine 1",
    "medicine 2", "comedication", "arv", "antiretroviral", "tb drug", "rifampin",
    "rifampicin", "rifapentine"] ||
    capAny hl ["drug", "medicine", "regimen"]

def effectKeyPats : List String := ["interaction", "effect", "impact", "change in level"]

def interactionRecPats : List String :=
  ["recommendation", "management", "action", "dose adjustment", "avoid"]

/-- One interaction-table row: the emitted line (if any) and whether the row had
a drug combination (counted by `rowsWithCombos`). -/
def interactionRowLine (headers drugHeaders : List String) (effectKey recKey : Option String)
    (ie : Nat × LRow) : Option (String × Bool) :=
  let row := ie.2
  let drugs := drugHeaders.filterMap (fun h =>
    match rowGet row h with
    | some v => if jsTrim v != "" then some (jsTrim v) else none
    | none => none)
  let effect : Option String :=
    match effectKey with
    | some k => if nonEmpty (rowGet row k) then some (jsTrim ((rowGet row k).getD "")) else none
    | none => none
  let recPart : Option String :=
    match recKey with
    | some k => if nonEmpty (rowGet row k) then some (jsTrim ((rowGet row k).getD "")) else none
    | none => none
  if drugs.isEmpty && effect.isNone && recPart.isNone then
    let cells := rowCellsList headers row
    if cells.isEmpty then none
    else some ("Row " ++ toString (ie.1 + 1) ++ ": " ++ joinWith "; " cells, false)
  else
    let l1 := if drugs.isEmpty then "" else "Combination " ++ joinWith " + " drugs
    let l2 :=
      match effect with
      | some e => l1 ++ (if l1 = "" then "" else " — ") ++ "effect: " ++ e
      | none => l1
    let l3 :=
      match recPart with
      | some r => l2 ++ (if l2 = "" then "" else "; ") ++ "recommendation: " ++ r
      | none => l2
    let line := if l3 = "" then "Row " ++ toString (ie.1 + 1) ++ ": (see table)" else l3
    some (line, !drugs.isEmpty)

/-- The number of combination rows (`rowsWithCombos`). -/
def interactionComboCount (headers drugHeaders : List String)
    (effectKey recKey : Option String) (logicalRows : List LRow) : Nat :=
  ((logicalRows.enum.filterMap (interactionRowLine headers drugHeaders effectKey recKey)).filter
    (fun r => r.2)).length

/-- `renderInteractionTable` (text part). -/
def renderInteractionTable (chunk : Chunk) (logicalRows : List LRow) : String :=
  let caption := if chunk.caption = "" then "Drug–drug interaction table" else chunk.caption
  let headers := getTableHeaders logicalRows
  if logicalRows.isEmpty || headers.isEmpty then caption ++ ". (No rows found.)"
  else
    let effectKey := findHeader headers effectKeyPats
    let recKey := findHeader headers interactionRecPats
    let drugHeaders := headers.filter isDrugHeader
    if drugHeaders.isEmpty then renderGenericTable chunk logicalRows
    else
      let rowResults :=
        logicalRows.enum.filterMap (interactionRowLine headers drugHeaders effectKey recKey)
      if (rowResults.filter (fun r => r.2)).length = 0 then renderGenericTable chunk logicalRows
      else
        joinWith "\n" ((caption ++ ". Drug combinations and recommendations:") ::
          rowResults.map (fun r => r.1))

/-! ## Toxicity renderer -/

def gradeKeyPats : List String := ["grade", "severity", "ctcae"]

def descKeyPats : List String := ["description", "finding", "toxicity", "event", "symptom"]

def mgmtKeyPats : List String :=
  ["management", "action", "recommendation", "dose adjustment", "stop"]

/-- One toxicity-table row: the emitted line (if any) and whether the row had a
non-empty grade (counted by `rowsWithGrades`). -/
def toxicityRowLine (headers : List String) (gradeKey : String)
    (descKey mgmtKey : Option String) (ie : Nat × LRow) : Option (String × Bool) :=
  let row := ie.2
  let grade := rowGet row gradeKey
  let desc : Option String :=
    match descKey with
    | some k => rowGet row k
    | none => none
  let mgmt : Option String :=
    match mgmtKey with
    | some k => rowGet row k
    | none => none
  if !nonEmpty grade && !nonEmpty desc && !nonEmpty mgmt then
    let cells := rowCellsList headers row
    if cells.isEmpty then none
    else some ("Row " ++ toString (ie.1 + 1) ++ ": " ++ joinWith "; " cells, false)
  else
    let parts :=
      (if nonEmpty desc then [jsTrim (desc.getD "")] else []) ++
        (if nonEmpty mgmt then ["management: " ++ jsTrim (mgmt.getD "")] else [])
    let line :=
      if parts.isEmpty then
        "Grade " ++ jsStringOf grade ++ ": see table row " ++ toString (ie.1 + 1)
      else "Grade " ++ jsStringOf grade ++ ": " ++ joinWith " — " parts
    some (line, nonEmpty grade)

/-- The number of graded rows (`rowsWithGrades`). -/
def toxicityGradeCount (headers : List String) (gradeKey : String)
    (descKey mgmtKey : Option String) (logicalRows : List LRow) : Nat :=
  ((logicalRows.enum.filterMap (toxicityRowLine headers gradeKey descKey mgmtKey)).filter
    (fun r => r.2)).length

/-- `renderToxicityTable` (text part). -/
def renderToxicityTable (chunk : Chunk) (logicalRows : List LRow) : String :=
  let caption := if chunk.caption = "" then "Toxicity / adverse event table" else chunk.caption
  let headers := getTableHeaders logicalRows
  if logicalRows.isEmpty || headers.isEmpty then caption ++ ". (No rows found.)"
  else
    let gradeKey := (findHeader headers gradeKeyPats).getD (headers.headD "")
    let descKey := findHeader headers descKeyPats
    let mgmtKey := findHeader headers mgmtKeyPats
    let rowResults :=
      logicalRows.enum.filterMap (toxicityRowLine headers gradeKey descKey mgmtKey)
    if (rowResults.filter (fun r => r.2)).length = 0 then renderGenericTable chunk logicalRows
    else
      joinWith "\n" ((caption ++ ". Toxicity grades and management:") ::
        rowResults.map (fun r => r.1))

/-- `renderTable(chunk, rawRows)`: normalize, detect, dispatch.  Returns the
subtype and the rendered text. -/
def renderTable (chunk : Chunk) (rawRows : List RawRow) : String × String :=
  let logicalRows := (normalizeTableRows rawRows).2
  let subtype := detectTableSubtype chunk logicalRows
  let text :=
    if subtype = "dosing" then renderDosingTable chunk logicalRows
    else if subtype = "peds_dosing" then renderPedsDosingTable chunk logicalRows
    else if subtype = "regimen" then renderRegimenTable chunk logicalRows
    else if subtype = "decision" then renderDecisionTable chunk logicalRows
    else if subtype = "timeline" then renderTimelineTable chunk logicalRows
    else if subtype = "interaction" then renderInteractionTable chunk logicalRows
    else if subtype = "toxicity" then renderToxicityTable chunk logicalRows
    else renderGenericTable chunk logicalRows
  (subtype, text)

deriving instance DecidableEq for Except

/-! ## Concrete inputs used by the claim theorems -/

def c6Question : String :=
  "What are the recommended monitoring steps for a patient on bedaquiline?"

def c7Chunk : Chunk := { chunk_id := "k", scope := "diagnosis" }

def c7WitnessChunk : Chunk := { chunk_id := "k", section_path := "general" }

def c2Chunks : List Chunk :=
  [{ doc_id := "d", chunk_id := "p1", section_path := "2.5" },
   { doc_id := "d", chunk_id := "t1", section_path := "2.5", content_type := "table" }]

def c2Embs : List (List ℚ) := [[1], [1]]

def c3Chunks : List Chunk :=
  [{ doc_id := "d", chunk_id := "x", section_path := "2.5" },
   { doc_id := "d", chunk_id := "x", section_path := "2.5", content_type := "table" }]

def c3Embs : List (List ℚ) := [[1], [1 / 2]]

def c4Body : ReqBody := { question := .jstr "hello" }

def c4Resp : RagResponse :=
  { question := "hello", top_k := 1, scope := none, document_hint := none,
    results := [({ doc_id := "d", chunk_id := "c0" }, 1)] }

def c8RawRows : List RawRow :=
  [[("ColumnA", some "Weight (kg)"), ("ColumnB", some "Dose (mg)"), ("row_index", some "1")],
   [("ColumnA", some "4-7"), ("ColumnB", some "50"), ("row_index", some "2")]]

def c8Chunk : Chunk := { content_type := "table" }

/-- A Logical Row keyed by the two header cells of the dosing-table scenario. -/
def wdRow (w d idx : Option String) : LRow :=
  ⟨[("Weight (kg)", w), ("Dose (mg)", d)], idx⟩

def c9Chunk : Chunk := { caption := "Regimens", content_type := "table" }

def c9Rows : List LRow := [⟨[("Regimen", some ""), ("Drugs", some "")], some "2"⟩]

def c9WChunk : Chunk := { caption := "T", content_type := "table" }

def c9WRows : List LRow := [⟨[("foo", some "")], some "2"⟩]

def c9DChunk : Chunk := { caption := "D", content_type := "table" }

def c9DRows : List LRow := [⟨[("Weight (kg)", some "")], some "2"⟩]


/-! # Claims -/

/-! ## C6: scope-inference scenario -/

/-- C6: for the question "What are the recommended monitoring steps for a patient
on bedaquiline?" with no caller-supplied scope, the classifier infers scope
`drug-safety`: its safety keyword count is exactly 1 and the lower-cased text
contains "monitor", while the earlier diagnosis branch (count ≥ 2, or ≥ 1 with
"module 3") and pediatrics branch (count ≥ 2) see zero keywords and do not fire. -/
theorem c6_scope_inference_scenario :
    inferScopeFromQuestion c6Question = some "drug-safety" ∧
    inferScopeJ (.jstr c6Question) = .ok (some "drug-safety") ∧
    keywordScore (jsLower c6Question) safetyKeywords = 1 ∧
    jsIncludes (jsLower c6Question) "monitor" = true ∧
    keywordScore (jsLower c6Question) diagnosisKeywords = 0 ∧
    jsIncludes (jsLower c6Question) "module 3" = false ∧
    keywordScore (jsLower c6Question) pediKeywords = 0 := by decide

/-! ## C10: range of the inferable scopes -/

/-- C10: on any string (and on a null or undefined question, which the source
collapses to the empty string), `inferScopeFromQuestion` returns `null` or one of
exactly five tags; "prevention", "screening" and "comorbidities" are never inferred. -/
theorem c10_inferable_scope_range :
    (∀ q : String,
      inferScopeFromQuestion q = none ∨
      inferScopeFromQuestion q = some "diagnosis" ∨
      inferScopeFromQuestion q = some "pediatrics" ∨
      inferScopeFromQuestion q = some "drug-safety" ∨
      inferScopeFromQuestion q = some "programmatic" ∨
      inferScopeFromQuestion q = some "treatment") ∧
    inferScopeJ .jnull = .ok none ∧
    inferScopeJ .jundef = .ok none ∧
    (∀ q : String, inferScopeFromQuestion q ≠ some "prevention" ∧
      inferScopeFromQuestion q ≠ some "screening" ∧
      inferScopeFromQuestion q ≠ some "comorbidities") := by
  have hrange : ∀ q : String,
      inferScopeFromQuestion q = none ∨
      inferScopeFromQuestion q = some "diagnosis" ∨
      inferScopeFromQuestion q = some "pediatrics" ∨
      inferScopeFromQuestion q = some "drug-safety" ∨
      inferScopeFromQuestion q = some "programmatic" ∨
      inferScopeFromQuestion q = some "treatment" := by
    intro q
    unfold inferScopeFromQuestion inferScopeCore
    dsimp only
    split_ifs <;> simp
  refine ⟨hrange, by decide, by decide, fun q => ?_⟩
  rcases hrange q with h | h | h | h | h | h <;> rw [h] <;> exact ⟨by simp, by simp, by simp⟩

/-! ## C5: validation is bypassed for truthy non-string questions (code bug) -/

/-- C5 (code bug): the handler calls `inferScopeFromQuestion(question)` /
`inferDocHintFromQuestion(question)` before the validation check, and those call
`(question || "").toLowerCase()`.  A truthy non-string question (a non-zero
number, an object, an array) therefore throws a `TypeError` that the `catch`
turns into a 500 server error, instead of the claimed 400 validation error; the
validation error is produced for falsy or blank questions, and for non-string
questions only when both `scope` and `document_hint` are caller-supplied. -/
theorem c5_validation_bypassed_by_inference :
    handleQuery { question := .jnum 42 } [] [] [] = .serverErr typeErrorMsg ∧
    handleQuery { question := .jobj } [] [] [] = .serverErr typeErrorMsg ∧
    handleQuery { question := .jarr } [] [] [] = .serverErr typeErrorMsg ∧
    handleQuery { question := .jstr "   " } [] [] [] = .clientErr validationMsg ∧
    handleQuery { question := .jstr "" } [] [] [] = .clientErr validationMsg ∧
    handleQuery { question := .jundef } [] [] [] = .clientErr validationMsg ∧
    handleQuery { question := .jnum 42, scope := some "diagnosis", document_hint := some "x" } [] [] [] = .clientErr validationMsg := by decide

/-! ## C7: unknown-scope passthrough (corrected) -/

/-- C7 counterexample: "nutrition" is outside the recognized scope set, yet
`filterIndicesByScope` does not pass the candidate through unfiltered — a chunk
carrying the explicit scope tag "diagnosis" is removed, leaving the empty set. -/
theorem c7_counterexample :
    "nutrition" ∉ recognizedScopes ∧
    filterIndicesByScope [0] [c7Chunk] (some "nutrition") = [] ∧
    ([0] : List Nat) ≠ [] := by decide

lemma scopeKeep_unknown (chunks : List Chunk) (s : String) (h : s ∉ recognizedScopes)
    (i : Nat) :
    scopeKeep chunks s i =
      (jsLower (chunkAt chunks i).scope == "" || jsLower (chunkAt chunks i).scope == s) := by
  simp only [recognizedScopes, List.mem_cons, List.not_mem_nil, or_false, not_or] at h
  obtain ⟨h1, h2, h3, h4, h5⟩ := h
  unfold scopeKeep
  by_cases hc : jsLower (chunkAt chunks i).scope = ""
  · simp [hc, beq_iff_eq, h1, h2, h3, h4, h5]
  · simp [hc, bne_iff_ne]

/-- C7 amended: for a non-empty scope string whose lower-casing is outside the
recognized set, the scope filter keeps exactly the candidates without an explicit
chunk scope tag, together with those whose tag equals the scope case-insensitively;
in particular, when no candidate carries an explicit tag the input index set is
returned unchanged. -/
theorem c7_unknown_scope_passthrough (indices : List Nat) (chunks : List Chunk)
    (scope : String) (hne : scope ≠ "") (h : jsLower scope ∉ recognizedScopes) :
    filterIndicesByScope indices chunks (some scope) =
      indices.filter (fun i =>
        jsLower (chunkAt chunks i).scope == "" ||
          jsLower (chunkAt chunks i).scope == jsLower scope) ∧
    ((∀ i ∈ indices, (chunkAt chunks i).scope = "") →
      filterIndicesByScope indices chunks (some scope) = indices) := by
  have hfil : filterIndicesByScope indices chunks (some scope) =
      indices.filter (scopeKeep chunks (jsLower scope)) := by
    unfold filterIndicesByScope
    simp [hne]
  constructor
  · rw [hfil]
    exact List.filter_congr (fun i _ => scopeKeep_unknown chunks (jsLower scope) h i)
  · intro hall
    rw [hfil]
    apply List.filter_eq_self.mpr
    intro i hi
    rw [scopeKeep_unknown chunks (jsLower scope) h i, hall i hi]
    simp [jsLower]

/-- Witness for `c7_unknown_scope_passthrough` at a concrete unknown scope. -/
theorem c7_witness :
    filterIndicesByScope [0] [c7WitnessChunk] (some "nutrition") = [0] :=
  (c7_unknown_scope_passthrough [0] [c7WitnessChunk] "nutrition" (by decide)
    (by decide)).2 (by decide)

/-! ## C1: fallback invariant of the candidate selector -/

lemma selectCandidates_eq (chunks : List Chunk) (n : Nat) (scope hint : Option String) :
    selectCandidates chunks n scope hint =
      (if (filterIndicesByDocHint (scopedIndicesStage chunks n scope) chunks hint).isEmpty
       then scopedIndicesStage chunks n scope
       else filterIndicesByDocHint (scopedIndicesStage chunks n scope) chunks hint) := rfl

lemma filterIndicesByDocHint_self_of_filtered_nil (indices : List Nat)
    (chunks : List Chunk) (hint : Option String)
    (h : docHintFiltered indices chunks hint = []) :
    filterIndicesByDocHint indices chunks hint = indices := by
  cases hint with
  | none => rfl
  | some s =>
    have h' : indices.filter (docHintKeep chunks (buildDocHintTokens (some s))) = [] := h
    unfold filterIndicesByDocHint
    by_cases hs : s = ""
    · simp [hs]
    · simp only [hs, if_false]
      rw [h']
      by_cases ht : (buildDocHintTokens (some s)).isEmpty
      · simp [ht]
      · simp [ht]

/-- C1: if the scope filter applied to the full index set yields zero candidates,
the scope filter is discarded and the full set is used; if the raw document-hint
filter applied to the scope-narrowed set yields zero candidates, the hint filter
is discarded and the scope-narrowed set is used; and for a non-empty corpus the
selected candidate set is never empty. -/
theorem c1_fallback_invariant (chunks : List Chunk) (n : Nat) (scope hint : Option String) :
    (filterIndicesByScope (List.range n) chunks scope = [] →
      scopedIndicesStage chunks n scope = List.range n) ∧
    (docHintFiltered (scopedIndicesStage chunks n scope) chunks hint = [] →
      selectCandidates chunks n scope hint = scopedIndicesStage chunks n scope) ∧
    (0 < n → selectCandidates chunks n scope hint ≠ []) := by
  have hS : 0 < n → scopedIndicesStage chunks n scope ≠ [] := by
    intro hn
    unfold scopedIndicesStage
    dsimp only
    split
    · simp only [ne_eq, List.range_eq_nil]
      omega
    · next hfalse => simpa [List.isEmpty_iff] using hfalse
  refine ⟨?_, ?_, ?_⟩
  · intro h
    unfold scopedIndicesStage
    simp [h]
  · intro h
    rw [selectCandidates_eq, filterIndicesByDocHint_self_of_filtered_nil _ _ _ h]
    simp
  · intro hn
    rw [selectCandidates_eq]
    split
    · exact hS hn
    · next hfe => simpa [List.isEmpty_iff] using hfe

/-- Witness for `c1_fallback_invariant`: a one-chunk corpus with nothing matching
scope "pediatrics" nor the hint "zzz". -/
theorem c1_witness :
    scopedIndicesStage [{ doc_id := "docx", chunk_id := "k" }] 1 (some "pediatrics") =
      List.range 1 ∧
    selectCandidates [{ doc_id := "docx", chunk_id := "k" }] 1 (some "pediatrics")
      (some "zzz") =
      scopedIndicesStage [{ doc_id := "docx", chunk_id := "k" }] 1 (some "pediatrics") ∧
    selectCandidates [{ doc_id := "docx", chunk_id := "k" }] 1 (some "pediatrics")
      (some "zzz") ≠ [] :=
  ⟨(c1_fallback_invariant [{ doc_id := "docx", chunk_id := "k" }] 1 (some "pediatrics")
      (some "zzz")).1 (by decide),
   (c1_fallback_invariant [{ doc_id := "docx", chunk_id := "k" }] 1 (some "pediatrics")
      (some "zzz")).2.1 (by decide),
   (c1_fallback_invariant [{ doc_id := "docx", chunk_id := "k" }] 1 (some "pediatrics")
      (some "zzz")).2.2 (by decide)⟩

/-! ## C2: cross-channel table boost -/

lemma boostEntry_fst (chunks : List Chunk) (amap : List Anchor) (m : ℚ) (e : Entry) :
    (boostEntry chunks amap m e).1 = e.1 := by
  unfold boostEntry
  dsimp only
  split
  · rfl
  · split <;> rfl

lemma boostEntry_boosted (chunks : List Chunk) (amap : List Anchor) (m : ℚ) (e : Entry)
    (hdoc : ¬(chunkAt chunks e.1).doc_id = "")
    (hany : amap.any (fun a =>
        a.doc_id == (chunkAt chunks e.1).doc_id &&
          a.sectionKeys.any (fun key =>
            (extractSectionKeys (chunkAt chunks e.1).section_path).contains key)) = true) :
    (98 / 100 : ℚ) * m ≤ (boostEntry chunks amap m e).2 := by
  unfold boostEntry
  dsimp only
  rw [if_neg hdoc, if_pos hany]
  calc (98 / 100 : ℚ) * m = m * (98 / 100) := mul_comm _ _
  _ ≤ max e.2 (m * (98 / 100)) := le_max_right _ _

/-- C2: after the boosting step, every table-channel entry whose chunk has a
non-empty `doc_id` equal to some anchor's `doc_id` and shares at least one
section key with that anchor has score at least `0.98 ×` the best prose-channel
score — where the code's `maxTextScore` is indeed an upper bound of every
prose-channel score (second conjunct). -/
theorem c2_cross_channel_boost (chunks : List Chunk) (embeddings : List (List ℚ))
    (qEmb : List ℚ) (indices : List Nat) :
    (∀ e ∈ rankBoostedTables chunks embeddings qEmb indices,
      ∀ a ∈ anchorsOf chunks (rankSortedText chunks embeddings qEmb indices),
        (chunkAt chunks e.1).doc_id ≠ "" →
        a.doc_id = (chunkAt chunks e.1).doc_id →
        (∃ key ∈ a.sectionKeys, key ∈ extractSectionKeys (chunkAt chunks e.1).section_path) →
        (98 / 100 : ℚ) * maxTextScoreOf (rankSortedText chunks embeddings qEmb indices) ≤ e.2) ∧
    (∀ p ∈ rankSortedText chunks embeddings qEmb indices,
      p.2 ≤ maxTextScoreOf (rankSortedText chunks embeddings qEmb indices)) := by
  constructor
  · intro e he a ha hdoc hadoc hoverlap
    unfold rankBoostedTables at he
    obtain ⟨e', _, rfl⟩ := List.mem_map.mp he
    rw [boostEntry_fst] at hdoc hadoc hoverlap
    apply boostEntry_boosted
    · exact hdoc
    · apply List.any_eq_true.mpr
      refine ⟨a, ?_, ?_⟩
      · apply List.mem_filter.mpr
        exact ⟨ha, by rw [hadoc]; exact bne_iff_ne.mpr hdoc⟩
      · rw [Bool.and_eq_true]
        constructor
        · exact beq_iff_eq.mpr hadoc
        · apply List.any_eq_true.mpr
          obtain ⟨key, hk, hk'⟩ := hoverlap
          exact ⟨key, hk, List.elem_iff.mpr hk'⟩
  · intro p hp
    have hsorted : List.Sorted entryLE (rankSortedText chunks embeddings qEmb indices) :=
      List.sorted_insertionSort entryLE _
    cases hst : rankSortedText chunks embeddings qEmb indices with
    | nil => rw [hst] at hp; cases hp
    | cons h t =>
      rw [hst] at hsorted hp
      unfold maxTextScoreOf
      rcases List.mem_cons.mp hp with rfl | hmem
      · exact le_refl _
      · exact List.rel_of_sorted_cons hsorted p hmem

/-- Witness for `c2_cross_channel_boost`: a prose chunk and a table chunk of the
same document and section; the boosted table entry's score 1 is at least
`0.98 × maxTextScore`, and the prose score 1 is at most `maxTextScore`. -/
theorem c2_witness :
    ((98 / 100 : ℚ) * maxTextScoreOf (rankSortedText c2Chunks c2Embs [1] [0, 1]) ≤ (1 : ℚ)) ∧
    ((1 : ℚ) ≤ maxTextScoreOf (rankSortedText c2Chunks c2Embs [1] [0, 1])) :=
  ⟨(c2_cross_channel_boost c2Chunks c2Embs [1] [0, 1]).1 ((1 : Nat), (1 : ℚ)) (by decide)
      ⟨0, 1, "d", "2.5", "", ["2.5"]⟩ (by decide) (by decide) (by decide) (by decide),
   (c2_cross_channel_boost c2Chunks c2Embs [1] [0, 1]).2 ((0 : Nat), (1 : ℚ)) (by decide)⟩

/-! ## C3: deduplication invariant -/

lemma dedupe_id_not_seen (chunks : List Chunk) (l : List Entry) :
    ∀ (seen : List String), ∀ r ∈ dedupeEntries chunks seen l,
      (chunkAt chunks r.1).chunk_id ∉ seen ∧ (chunkAt chunks r.1).chunk_id ≠ "" := by
  induction l with
  | nil => intro seen r hr; simp [dedupeEntries] at hr
  | cons x rest ih =>
    intro seen r hr
    unfold dedupeEntries at hr
    dsimp only at hr
    split at hr
    · exact ih seen r hr
    · next hcond =>
      rcases List.mem_cons.mp hr with rfl | hmem
      · constructor
        · intro hs
          apply hcond
          simp only [Bool.or_eq_true, decide_eq_true_eq]
          exact Or.inr (List.elem_iff.mpr hs)
        · intro hs
          apply hcond
          simp only [Bool.or_eq_true, decide_eq_true_eq]
          exact Or.inl hs
      · have h2 := ih ((chunkAt chunks x.1).chunk_id :: seen) r hmem
        exact ⟨fun hs => h2.1 (List.mem_cons_of_mem _ hs), h2.2⟩

lemma dedupe_pairwise (chunks : List Chunk) (l : List Entry) :
    ∀ (seen : List String), (dedupeEntries chunks seen l).Pairwise
      (fun a b => (chunkAt chunks a.1).chunk_id ≠ (chunkAt chunks b.1).chunk_id) := by
  induction l with
  | nil => intro seen; simp [dedupeEntries]
  | cons x rest ih =>
    intro seen
    unfold dedupeEntries
    dsimp only
    split
    · exact ih seen
    · refine List.Pairwise.cons ?_ (ih _)
      intro b hb hEq
      have hb' := (dedupe_id_not_seen chunks rest _ b hb).1
      exact hb' (hEq ▸ List.mem_cons_self _ _)

lemma dedupe_score_max (chunks : List Chunk) (l : List Entry) :
    l.Sorted entryLE → ∀ (seen : List String), ∀ r ∈ dedupeEntries chunks seen l,
      ∀ e ∈ l, (chunkAt chunks e.1).chunk_id = (chunkAt chunks r.1).chunk_id →
        e.2 ≤ r.2 := by
  induction l with
  | nil => intro _ seen r hr; simp [dedupeEntries] at hr
  | cons x rest ih =>
    intro hs seen r hr e he hid
    have hs' : rest.Sorted entryLE := hs.of_cons
    unfold dedupeEntries at hr
    dsimp only at hr
    split at hr
    · next hcond =>
      rcases List.mem_cons.mp he with rfl | hmem
      · have hr' := dedupe_id_not_seen chunks rest seen r hr
        rcases (by simpa using hcond : (chunkAt chunks e.1).chunk_id = "" ∨
            List.contains seen (chunkAt chunks e.1).chunk_id = true) with hc | hc
        · exact absurd (hid ▸ hc) hr'.2
        · exact absurd (hid ▸ List.elem_iff.mp hc) hr'.1
      · exact ih hs' seen r hr e hmem hid
    · rcases List.mem_cons.mp hr with rfl | hrmem
      · rcases List.mem_cons.mp he with rfl | hmem
        · exact le_refl _
        · exact List.rel_of_sorted_cons hs e hmem
      · rcases List.mem_cons.mp he with rfl | hmem
        · have hr' := (dedupe_id_not_seen chunks rest _ r hrmem).1
          exact absurd (hid ▸ List.mem_cons_self _ _) hr'
        · exact ih hs' _ r hrmem e hmem hid

/-- C3: in the (intended) merge/dedupe step, no two returned result items share a
`chunk_id`, and each surviving entry's score is at least the score of every entry
of the sorted merged list that carries the same `chunk_id` — so when a chunk id
occurs in both channels, the survivor carries the higher score. -/
theorem c3_dedupe_invariant (chunks : List Chunk) (embeddings : List (List ℚ))
    (qEmb : List ℚ) (indices : List Nat) (k : Nat) :
    (ragResults chunks embeddings qEmb indices k).Pairwise
      (fun a b => a.1.chunk_id ≠ b.1.chunk_id) ∧
    (∀ r ∈ rankDeduped chunks embeddings qEmb indices,
      ∀ e ∈ rankCombined chunks embeddings qEmb indices,
        (chunkAt chunks e.1).chunk_id = (chunkAt chunks r.1).chunk_id → e.2 ≤ r.2) := by
  constructor
  · unfold ragResults
    rw [List.pairwise_map]
    apply List.Pairwise.sublist (List.take_sublist _ _)
    exact dedupe_pairwise chunks _ []
  · intro r hr e he hid
    have hsorted : (rankCombined chunks embeddings qEmb indices).Sorted entryLE := by
      unfold rankCombined sortByScoreDesc
      exact List.sorted_insertionSort _ _
    exact dedupe_score_max chunks _ hsorted [] r hr e he hid

/-- Witness for `c3_dedupe_invariant`: a prose chunk and a table chunk share the
`chunk_id` "x"; the boosted table copy scores 49/50, the prose copy 1, and the
surviving score 1 dominates. -/
theorem c3_witness : ((49 : ℚ) / 50) ≤ (1 : ℚ) :=
  (c3_dedupe_invariant c3Chunks c3Embs [1] [0, 1] 8).2 ((0 : Nat), (1 : ℚ)) (by decide)
    ((1 : Nat), (49 / 50 : ℚ)) (by decide) (by decide)

/-! ## C4: top-K limit -/

/-- C4: for every successful response, the `top_k` field equals the requested
`top_k` (default 8 when absent or non-numeric) clamped to `[1, 8]` and then to
the corpus size, it lies in `[1, 8]` and below the corpus size, and the results
array has at most that many entries. -/
theorem c4_top_k_clamping (body : ReqBody) (chunks : List Chunk)
    (embeddings : List (List ℚ)) (qEmb : List ℚ) (resp : RagResponse)
    (h : handleQuery body chunks embeddings qEmb = .ok resp) :
    resp.top_k = min (max 1 (min (body.top_k.getD 8) 8)) (embeddings.length : ℚ) ∧
    1 ≤ resp.top_k ∧ resp.top_k ≤ 8 ∧ resp.top_k ≤ (embeddings.length : ℚ) ∧
    (resp.results.length : ℚ) ≤ resp.top_k := by
  unfold handleQuery at h
  dsimp only at h
  split at h
  · simp at h
  · split at h
    · simp at h
    · split at h
      · simp at h
      · split at h
        · simp at h
        · next hemb =>
          rw [HResp.ok.injEq] at h
          subst h
          have hlen : 1 ≤ (embeddings.length : ℚ) := by
            have : ¬embeddings.isEmpty = true := by
              intro hx
              exact hemb (by simp [hx])
            have hne : embeddings ≠ [] := by simpa [List.isEmpty_iff] using this
            have : 0 < embeddings.length := List.length_pos.mpr hne
            exact_mod_cast this
          have ht0' : (match body.top_k with | some n => n | none => (8 : ℚ)) =
              body.top_k.getD 8 := by
            cases body.top_k <;> rfl
          rw [ht0']
          set t0 : ℚ := body.top_k.getD 8 with ht0
          set tk : ℚ := min (max 1 (min t0 8)) (embeddings.length : ℚ) with htk
          have h1 : (1 : ℚ) ≤ tk := le_min (le_max_left _ _) hlen
          refine ⟨rfl, h1, ?_, min_le_right _ _, ?_⟩
          · exact le_trans (min_le_left _ _) (max_le (by norm_num) (min_le_right _ _))
          · have hfl : (0 : ℤ) ≤ Rat.floor tk :=
              Rat.le_floor.mpr (by exact_mod_cast le_trans zero_le_one h1)
            have hcast : (((Rat.floor tk).toNat : ℕ) : ℚ) ≤ tk := by
              have h2 : (((Rat.floor tk).toNat : ℕ) : ℚ) = ((Rat.floor tk : ℤ) : ℚ) := by
                exact_mod_cast Int.toNat_of_nonneg hfl
              rw [h2]
              exact_mod_cast Rat.le_floor.mp (le_refl _)
            refine le_trans ?_ hcast
            rw [Nat.cast_le]
            dsimp only
            unfold ragResults
            rw [List.length_map]
            exact List.length_take_le _ _

/-- Witness for `c4_top_k_clamping`: a one-chunk corpus and a default `top_k`
clamp to an effective `top_k` of 1. -/
theorem c4_witness :
    c4Resp.top_k = min (max 1 (min (c4Body.top_k.getD 8) 8))
      ((([[1]] : List (List ℚ)).length : ℚ)) ∧
    1 ≤ c4Resp.top_k ∧ c4Resp.top_k ≤ 8 ∧
    c4Resp.top_k ≤ (([[1]] : List (List ℚ)).length : ℚ) ∧
    (c4Resp.results.length : ℚ) ≤ c4Resp.top_k :=
  c4_top_k_clamping c4Body [{ doc_id := "d", chunk_id := "c0" }] [[1]] [1] c4Resp (by decide)

/-! ## C8: dosing-table scenario (corrected) -/

/-- C8 counterexample: a table whose Header Row cells are "Weight (kg)" and
"Dose (mg)" is classified `dosing`, but the render output's single row line is
"4-7: Weight (kg): 4-7" — the dose value "50" appears nowhere in the output, so
the row line does not contain weight-band and dose values concatenated. -/
theorem c8_counterexample :
    detectTableSubtype c8Chunk (normalizeTableRows c8RawRows).2 = "dosing" ∧
    (normalizeTableRows c8RawRows).2.length = 1 ∧
    renderDosingTable c8Chunk (normalizeTableRows c8RawRows).2 =
      "Dosing table. Weight-band dosing summary:\n4-7: Weight (kg): 4-7" ∧
    jsIncludes (renderDosingTable c8Chunk (normalizeTableRows c8RawRows).2) "50" = false := by
  decide

/-- C8 amended: a table chunk whose Logical Rows are keyed "Weight (kg)" and
"Dose (mg)" (at least one row; no pediatric cue in caption or section) is
classified `dosing`, and the dosing renderer emits one line per Logical Row whose
weight cell is non-blank, containing that row's weight-band value as the row
label and again in the "Weight (kg): value" pair — the dose value is not read. -/
theorem c8_dosing_scenario (chunk : Chunk)
    (rows : List (Option String × Option String × Option String))
    (hne : rows ≠ [])
    (hcap : capAny (jsLower chunk.caption)
      ["child", "paediatric", "pediatric", "infant", "neonate"] = false)
    (hsec : jsIncludes (jsLower chunk.section_path) "child" = false) :
    detectTableSubtype chunk (rows.map (fun t => wdRow t.1 t.2.1 t.2.2)) = "dosing" ∧
    renderDosingTable chunk (rows.map (fun t => wdRow t.1 t.2.1 t.2.2)) =
      joinWith "\n"
        (((if chunk.caption = "" then "Dosing table" else chunk.caption) ++
            ". Weight-band dosing summary:") ::
          rows.filterMap (fun t =>
            match t.1 with
            | some w =>
              if jsTrim w != "" then
                some (w ++ ": " ++ ("Weight (kg)" ++ ": " ++ jsTrim w))
              else none
            | none => none)) := by
  obtain ⟨t0, ts, rfl⟩ : ∃ t0 ts, rows = t0 :: ts := by
    cases rows with
    | nil => exact absurd rfl hne
    | cons a l => exact ⟨a, l, rfl⟩
  constructor
  · have hheads : detectHeaders ((t0 :: ts).map (fun t => wdRow t.1 t.2.1 t.2.2)) =
        ["weight (kg)", "dose (mg)", "_row_index"] := rfl
    unfold detectTableSubtype
    dsimp only
    rw [hheads]
    have hkg : (["weight (kg)", "dose (mg)", "_row_index"].any
        (fun h => jsIncludes h "kg")) = true := by decide
    rw [hkg, Bool.or_true, hcap, hsec]
    simp
  · have hhd : getTableHeaders ((t0 :: ts).map (fun t => wdRow t.1 t.2.1 t.2.2)) =
        ["Weight (kg)", "Dose (mg)"] := rfl
    unfold renderDosingTable
    dsimp only
    rw [hhd]
    have hcond : (((t0 :: ts).map (fun t => wdRow t.1 t.2.1 t.2.2)).isEmpty ||
        (["Weight (kg)", "Dose (mg)"] : List String).isEmpty) = false := rfl
    rw [hcond]
    have hmed : (findHeader ["Weight (kg)", "Dose (mg)"] medKeyPats).getD
        ((["Weight (kg)", "Dose (mg)"] : List String).headD "") = "Weight (kg)" := by decide
    have hwbk : (["Weight (kg)", "Dose (mg)"] : List String).filter
        (fun h => capAny (jsLower h) weightBandPats) = ["Weight (kg)"] := by decide
    rw [hmed, hwbk]
    simp only [Bool.false_eq_true, if_false, List.isEmpty_cons]
    rw [List.filterMap_map]
    refine congrArg _ (congrArg _ ?_)
    apply List.filterMap_congr
    intro t _
    rcases t with ⟨w, d, i⟩
    cases w with
    | none => rfl
    | some w' =>
      by_cases hw : jsTrim w' = ""
      · simp [wdRow, rowGet, nonEmpty, hw]
      · simp [wdRow, rowGet, nonEmpty, labelVal, hw, joinWith]

/-- Witness for `c8_dosing_scenario` at a one-row dosing table. -/
theorem c8_witness :
    detectTableSubtype c8Chunk
      ([((some "4-7" : Option String), (some "50" : Option String),
        (some "2" : Option String))].map (fun t => wdRow t.1 t.2.1 t.2.2)) = "dosing" :=
  (c8_dosing_scenario c8Chunk [(some "4-7", some "50", some "2")] (by decide) (by decide)
    (by decide)).1

/-! ## C9: renderer fallback guarantee (corrected) -/

/-- C9 counterexample, in two parts.  Regimen: for a non-empty Logical Row list
that produces zero structured rows (every cell blank), `renderRegimenTable`
returns only the caption header line, not the generic renderer's output — it has
no generic fallback at all.  Dosing: with a weight-band header recognized but the
single row's weight cell blank, `renderDosingTable` likewise produces zero
structured rows from a non-empty row list yet returns the caption header line
alone instead of the generic output — so the claimed
"zero structured rows implies generic output" guarantee fails for the dosing
renderer too, not only for regimen. -/
theorem c9_counterexample :
    (c9Rows ≠ [] ∧
      detectTableSubtype c9Chunk c9Rows = "regimen" ∧
      renderRegimenTable c9Chunk c9Rows = "Regimens. Regimen components and options:" ∧
      renderGenericTable c9Chunk c9Rows =
        "Regimens. Columns: Regimen, Drugs\nRow 1: Regimen: ; Drugs: " ∧
      renderRegimenTable c9Chunk c9Rows ≠ renderGenericTable c9Chunk c9Rows) ∧
    (c9DRows ≠ [] ∧
      detectTableSubtype c9DChunk c9DRows = "dosing" ∧
      (getTableHeaders c9DRows).filter (fun h => capAny (jsLower h) weightBandPats) =
        ["Weight (kg)"] ∧
      renderDosingTable c9DChunk c9DRows = "D. Weight-band dosing summary:" ∧
      renderGenericTable c9DChunk c9DRows =
        "D. Columns: Weight (kg)\nRow 1: Weight (kg): " ∧
      renderDosingTable c9DChunk c9DRows ≠ renderGenericTable c9DChunk c9DRows) := by
  decide


/-- C9 amended: the decision, timeline, interaction and toxicity renderers return
exactly the generic renderer's output whenever they produce zero structured rows
from a non-empty Logical Row list with at least one header; the dosing and
peds-dosing renderers return the generic output whenever no weight-band header is
recognized.  (The guarantee extends no further: the counterexample theorem
exhibits the regimen renderer, and the dosing renderer with a weight-band header
present, each producing zero structured rows from non-empty rows without
returning the generic output.) -/
theorem c9_renderer_fallbacks (chunk : Chunk) (rows : List LRow)
    (hrows : rows ≠ []) (hheads : getTableHeaders rows ≠ []) :
    ((getTableHeaders rows).filter (fun h => capAny (jsLower h) weightBandPats) = [] →
      renderDosingTable chunk rows = renderGenericTable chunk rows ∧
      renderPedsDosingTable chunk rows = renderGenericTable chunk rows) ∧
    (decisionIfThenCount (getTableHeaders rows) rows = 0 →
      renderDecisionTable chunk rows = renderGenericTable chunk rows) ∧
    (timelineBodyLines rows = [] →
      renderTimelineTable chunk rows = renderGenericTable chunk rows) ∧
    (interactionComboCount (getTableHeaders rows)
        ((getTableHeaders rows).filter isDrugHeader)
        (findHeader (getTableHeaders rows) effectKeyPats)
        (findHeader (getTableHeaders rows) interactionRecPats) rows = 0 →
      renderInteractionTable chunk rows = renderGenericTable chunk rows) ∧
    (toxicityGradeCount (getTableHeaders rows)
        ((findHeader (getTableHeaders rows) gradeKeyPats).getD
          ((getTableHeaders rows).headD ""))
        (findHeader (getTableHeaders rows) descKeyPats)
        (findHeader (getTableHeaders rows) mgmtKeyPats) rows = 0 →
      renderToxicityTable chunk rows = renderGenericTable chunk rows) := by
  have h1 : rows.isEmpty = false := by
    rw [Bool.eq_false_iff]
    intro hx
    exact hrows (List.isEmpty_iff.mp hx)
  have h2 : (getTableHeaders rows).isEmpty = false := by
    rw [Bool.eq_false_iff]
    intro hx
    exact hheads (List.isEmpty_iff.mp hx)
  have hcond : (rows.isEmpty || (getTableHeaders rows).isEmpty) = false := by
    rw [h1, h2]
    rfl
  refine ⟨?_, ?_, ?_, ?_, ?_⟩
  · intro h
    constructor
    · unfold renderDosingTable
      dsimp only
      rw [hcond]
      simp only [Bool.false_eq_true, if_false]
      rw [h]
      rfl
    · unfold renderPedsDosingTable
      dsimp only
      rw [hcond]
      simp only [Bool.false_eq_true, if_false]
      rw [h]
      rfl
  · intro h
    unfold decisionIfThenCount at h
    unfold renderDecisionTable
    dsimp only
    rw [hcond]
    simp only [Bool.false_eq_true, if_false]
    rw [if_pos h]
  · intro h
    unfold renderTimelineTable
    dsimp only
    rw [hcond]
    simp only [Bool.false_eq_true, if_false]
    rw [h]
    rfl
  · intro h
    unfold interactionComboCount at h
    unfold renderInteractionTable
    dsimp only
    rw [hcond]
    simp only [Bool.false_eq_true, if_false]
    by_cases hd : ((getTableHeaders rows).filter isDrugHeader).isEmpty = true
    · rw [if_pos hd]
    · rw [if_neg hd, if_pos h]
  · intro h
    unfold toxicityGradeCount at h
    unfold renderToxicityTable
    dsimp only
    rw [hcond]
    simp only [Bool.false_eq_true, if_false]
    rw [if_pos h]


/-- Witness for `c9_renderer_fallbacks`: a one-row, one-header table whose only
cell is blank triggers every fallback condition at once. -/
theorem c9_witness :
    renderDosingTable c9WChunk c9WRows = renderGenericTable c9WChunk c9WRows ∧
    renderPedsDosingTable c9WChunk c9WRows = renderGenericTable c9WChunk c9WRows ∧
    renderDecisionTable c9WChunk c9WRows = renderGenericTable c9WChunk c9WRows ∧
    renderTimelineTable c9WChunk c9WRows = renderGenericTable c9WChunk c9WRows ∧
    renderInteractionTable c9WChunk c9WRows = renderGenericTable c9WChunk c9WRows ∧
    renderToxicityTable c9WChunk c9WRows = renderGenericTable c9WChunk c9WRows :=
  let T := c9_renderer_fallbacks c9WChunk c9WRows (by decide) (by decide)
  ⟨(T.1 (by decide)).1, (T.1 (by decide)).2, T.2.1 (by decide), T.2.2.1 (by decide),
   T.2.2.2.1 (by decide), T.2.2.2.2 (by decide)⟩
